import Mathlib

/-!
# Video queue backend (`backend/main.go`): shallow embedding and verified properties

The HTTP handlers of `backend/main.go` are embedded as pure functions.  The local
`videos` table is a list of rows, the cursor file is an optional timestamp, and every
outcome the handlers branch on but do not compute themselves (the answer of the remote
store, an error returned by `db.Exec`, a failing file write) is an explicit argument.
What a handler passes to `c.JSON` is returned as a value next to the new table.

Go `int` arithmetic is exact integer arithmetic followed by `wrap64`.  Timestamps are
integers, the zero value of `time.Time` being `0`.  Texts are compared in code point
order.  `(*sql.Rows).Scan` is embedded with its two documented failures that the
source can meet: a number of destinations different from the number of result columns
(`rowsScan`), and a NULL read into a Go `string` (`scanVideoRow`).
-/

namespace VideoBackend

/-! ## Data model -/

/-- Go `int` on 64-bit targets: the exact integer reduced to two's complement range. -/
def wrap64 (x : Int) : Int := (x + 2 ^ 63) % 2 ^ 64 - 2 ^ 63

/-- One row of the local `videos` table created in `initDB` (lines 110-119).
`resolution` and `bitrate` are the two nullable columns. -/
structure Row where
  id : String
  path : String
  resolution : Option String
  bitrate : Option String
  status : String
  original_size : Int
deriving DecidableEq

/-- Go struct `Video` (lines 20-27). -/
structure Video where
  ID : String
  Path : String
  Resolution : String
  Bitrate : String
  Status : String
  OriginalSize : Int
deriving DecidableEq

/-- The arguments of a call `c.JSON(code, gin.H{key: value})`. -/
structure Reply where
  code : Nat
  key : String
  value : String
deriving DecidableEq

/-! ## SQL statements on the local table -/

/-- Statement `DELETE FROM videos WHERE id = $1` (line 444). -/
def sqlDelete (videos : List Row) (id : String) : List Row :=
  videos.filter (fun r => r.id != id)

/-- Statement `UPDATE videos SET status = $1 WHERE id = $2` (line 389). -/
def sqlUpdateStatus (videos : List Row) (status id : String) : List Row :=
  videos.map (fun r => if r.id = id then { r with status := status } else r)

/-- Statement `INSERT INTO videos (id, path, status, original_size) VALUES (...)
ON CONFLICT (id) DO NOTHING` (lines 195-199): the two columns that are not listed
get NULL, and a row whose id is already present is not inserted. -/
def sqlInsertIgnore (videos : List Row) (id path status : String) (size : Int) : List Row :=
  if videos.any (fun r => r.id == id) then videos
  else videos ++ [{ id := id, path := path, resolution := none, bitrate := none,
                    status := status, original_size := size }]

/-! ## `deleteVideo` (lines 398-451) -/

/-- Outcome of building and sending the remote DELETE request (lines 420-434). -/
inductive RemoteResult where
  /-- Outcome where `http.NewRequest` returned an error (line 421). -/
  | requestError (msg : String)
  /-- Outcome where `client.Do` returned an error (line 431). -/
  | transportError (msg : String)
  /-- Outcome where a response arrived, with its `StatusCode` and body. -/
  | response (StatusCode : Nat) (body : String)
deriving DecidableEq

/-- Text of the validation error for the `binding:"required"` tag; the exact wording
comes from the validator package and plays no role below. -/
def requiredTagError : String := "Field validation for ID failed on the required tag"

/-- Handler `deleteVideo`.  `ID` is the decoded request field, `remote` the outcome of
the remote request, `execErr` the error (if any) returned by `db.Exec` at line 444. -/
def deleteVideo (ID : String) (remote : RemoteResult) (execErr : Option String)
    (videos : List Row) : Reply × List Row :=
  -- lines 403-406: `binding:"required"` rejects the zero value of the field
  if ID = "" then (⟨400, "error", requiredTagError⟩, videos)
  else
    match remote with
    | .requestError msg => (⟨500, "error", msg⟩, videos)
    | .transportError msg => (⟨500, "error", msg⟩, videos)
    | .response StatusCode body =>
      -- line 437: `resp.StatusCode != http.StatusOK`
      if StatusCode ≠ 200 then (⟨StatusCode, "error", body⟩, videos)
      else
        match execErr with
        | some msg => (⟨500, "error", msg⟩, videos)
        | none => (⟨200, "message", "Video deleted successfully"⟩, sqlDelete videos ID)

/-- The remote phase failed: no response at all, or a response that the spec does not
count as success (status code outside 200..299). -/
def remoteFailed : RemoteResult → Prop
  | .requestError _ => True
  | .transportError _ => True
  | .response StatusCode _ => ¬ (200 ≤ StatusCode ∧ StatusCode ≤ 299)

/-! ## `updateVideoStatus` (lines 377-396) -/

/-- Handler `updateVideoStatus`.  `id` is the path parameter, `Status` the decoded body
field, `execErr` the error (if any) returned by `db.Exec` at line 389.  The result of
`db.Exec` (the number of affected rows) is discarded by the source. -/
def updateVideoStatus (id Status : String) (execErr : Option String)
    (videos : List Row) : Reply × List Row :=
  match execErr with
  | some msg => (⟨500, "error", msg⟩, videos)
  | none => (⟨200, "status", "updated"⟩, sqlUpdateStatus videos Status id)

/-! ## `getQueue` (lines 255-335) -/

/-- Go struct `PaginationParams` (lines 36-40), after `c.ShouldBindQuery`. -/
structure PaginationParams where
  Page : Int
  PageSize : Int
  Status : String
deriving DecidableEq

/-- Go struct `VideoQueue` (lines 29-34). -/
structure VideoQueue where
  Pending : List Video
  Processing : List Video
  Completed : List Video
  Total : Int
deriving DecidableEq

/-- The `pagination` object of the reply (lines 328-333). -/
structure Pagination where
  page : Int
  pageSize : Int
  total : Int
  pages : Int
deriving DecidableEq

/-- What `getQueue` passes to `c.JSON`: the queue with its pagination, or an error. -/
inductive QueueReply where
  /-- Reply of line 326. -/
  | ok (queue : VideoQueue) (pagination : Pagination)
  /-- Reply `gin.H{"error": msg}` with the given status code. -/
  | error (code : Nat) (msg : String)
deriving DecidableEq

/-- The `CASE status WHEN ... END` expression of the ORDER BY clause (lines 291-295). -/
def statusPriority (status : String) : Nat :=
  if status = "processing" then 1
  else if status = "pending" then 2
  else if status = "completed" then 3
  else 4

/-- Ascending comparison of two texts, character by character (code point order, which
is byte order of the UTF-8 encoding); a proper initial part sorts first. -/
def charsLE : List Char → List Char → Bool
  | [], _ => true
  | _ :: _, [] => false
  | a :: as, b :: bs =>
    if a.toNat < b.toNat then true
    else if b.toNat < a.toNat then false
    else charsLE as bs

/-- Order of the `path` column used by `ORDER BY path`, taken in code point order. -/
def pathLE (a b : String) : Bool := charsLE a.toList b.toList

/-- The ORDER BY key of line 291-295 on table rows: status priority, then path. -/
def queueOrder (a b : Row) : Prop :=
  statusPriority a.status < statusPriority b.status ∨
    (statusPriority a.status = statusPriority b.status ∧ pathLE a.path b.path = true)

instance queueOrderDecidable : DecidableRel queueOrder := fun a b => by
  unfold queueOrder; exact inferInstance

/-- The same key on scanned `Video` values. -/
def videoOrder (a b : Video) : Prop :=
  statusPriority a.Status < statusPriority b.Status ∨
    (statusPriority a.Status = statusPriority b.Status ∧ pathLE a.Path b.Path = true)

instance videoOrderDecidable : DecidableRel videoOrder := fun a b => by
  unfold videoOrder; exact inferInstance

/-- The optional clause `WHERE status = '<Status>'` (lines 277-279).  The clause is
built by text interpolation; the embedding reads it as the equality test, which is
what the database executes for a `Status` text without a quote character. -/
def whereStatus (Status : String) (videos : List Row) : List Row :=
  if Status = "" then videos else videos.filter (fun r => r.status == Status)

/-- The page statement (lines 290-296): filter, ORDER BY, then OFFSET and LIMIT. -/
def queryPage (Status : String) (PageSize offset : Int) (videos : List Row) : List Row :=
  (((whereStatus Status videos).insertionSort queueOrder).drop offset.toNat).take PageSize.toNat

/-- One `rows.Scan` of `scanVideoRows` (line 341): six columns into six destinations;
a NULL `resolution` or `bitrate` cannot be stored in a Go `string` and is an error. -/
def scanVideoRow (r : Row) : Option Video :=
  match r.resolution, r.bitrate with
  | some resolution, some bitrate =>
    some ⟨r.id, r.path, resolution, bitrate, r.status, r.original_size⟩
  | _, _ => none

/-- Function `scanVideoRows` (lines 337-349): rows whose scan fails are skipped. -/
def scanVideoRows (rows : List Row) : List Video := rows.filterMap scanVideoRow

/-- Body of the grouping loop (lines 316-323). -/
def groupStep (queue : VideoQueue) (video : Video) : VideoQueue :=
  if video.Status = "pending" then { queue with Pending := queue.Pending ++ [video] }
  else if video.Status = "processing" then
    { queue with Processing := queue.Processing ++ [video] }
  else if video.Status = "completed" then
    { queue with Completed := queue.Completed ++ [video] }
  else queue

/-- Grouping of the scanned page by status (lines 308-324). -/
def groupByStatus (videos : List Video) (total : Int) : VideoQueue :=
  videos.foldl groupStep ⟨[], [], [], total⟩

/-- Validated page number (lines 263-265). -/
def normPage (Page : Int) : Int := if Page < 1 then 1 else Page

/-- Validated page size (lines 266-268). -/
def normPageSize (PageSize : Int) : Int :=
  if PageSize < 1 ∨ PageSize > 100 then 10 else PageSize

/-- Value of `offset` (line 270), computed in Go `int`. -/
def pageOffset (params : PaginationParams) : Int :=
  wrap64 (wrap64 (normPage params.Page - 1) * normPageSize params.PageSize)

/-- Value of `total` (line 283): `COUNT(*)` with the same filter, stored in Go `int`. -/
def countTotal (Status : String) (videos : List Row) : Int :=
  wrap64 (whereStatus Status videos).length

/-- Value of `"pages"` (line 332), computed in Go `int`; `/` truncates. -/
def pageCount (total PageSize : Int) : Int :=
  (wrap64 (wrap64 (total + PageSize) - 1)).tdiv PageSize

/-- The slice `videos` of line 305 for a request the database accepts. -/
def pageVideos (params : PaginationParams) (videos : List Row) : List Video :=
  scanVideoRows
    (queryPage params.Status (normPageSize params.PageSize) (pageOffset params) videos)

/-- Handler `getQueue`.  `countErr` and `queryErr` are the errors (if any) that the
two database calls return for reasons of their own; the page statement is moreover
rejected by the database when its OFFSET is negative. -/
def getQueue (params : PaginationParams) (countErr queryErr : Option String)
    (videos : List Row) : QueueReply :=
  match countErr with
  | some msg => .error 500 msg
  | none =>
    let total := countTotal params.Status videos
    match queryErr with
    | some msg => .error 500 msg
    | none =>
      if pageOffset params < 0 then .error 500 "pq: OFFSET must not be negative"
      else
        .ok (groupByStatus (pageVideos params videos) total)
          ⟨normPage params.Page, normPageSize params.PageSize, total,
            pageCount total (normPageSize params.PageSize)⟩

/-! ## Discovery: `getUnprocessedVideos` (lines 156-245) and the cursor file -/

/-- A row of the remote `assets` table, with the columns the query reads.  `createdAt`
is an instant counted from the zero value of `time.Time`, which is instant `0`. -/
structure Asset where
  id : String
  originalPath : String
  createdAt : Int
  originalFileName : String
  type : String
  status : String
deriving DecidableEq

/-- Function `loadLastProcessedTime` (lines 51-61); the file content is `none` when the
file is missing or does not parse. -/
def loadLastProcessedTime (file : Option Int) : Int :=
  match file with
  | none => 0
  | some t => t

/-- Function `saveLastProcessedTime` (lines 63-69): the error, and the file afterwards;
a failing write is taken to leave the file as it was. -/
def saveLastProcessedTime (writeFails : Bool) (t : Int) (file : Option Int) :
    Option String × Option Int :=
  if writeFails then (some "write failed", file) else (none, some t)

/-- Condition `"originalFileName" LIKE '%.mkv'` (line 166). -/
def likeMkv (name : String) : Bool := ".mkv".toList.isSuffixOf name.toList

/-- The remote statement (lines 160-168) for cursor `lastProcessed`. -/
def remoteQuery (assets : List Asset) (lastProcessed : Int) : List Asset :=
  ((assets.filter (fun a => a.type == "VIDEO" && a.status == "active" &&
      decide (a.createdAt > lastProcessed) && !likeMkv a.originalFileName)).insertionSort
    (fun a b => a.createdAt ≤ b.createdAt)).take 100

/-- The four result columns of the remote statement (line 161). -/
def remoteColumns : List String := ["id", "originalPath", "createdAt", "originalFileName"]

/-- Arity check of `(*sql.Rows).Scan`: the call returns an error, before storing
anything, unless it is given exactly one destination per result column. -/
def rowsScan (columns : List String) (dests : Nat) : Bool := columns.length == dests

/-- Test whether the first list is an initial part of the second. -/
def startsWith : List Char → List Char → Bool
  | [], _ => true
  | _ :: _, [] => false
  | p :: ps, c :: cs => p == c && startsWith ps cs

/-- Replacement of the first occurrence of `old`, on character lists. -/
def replaceFirstChars (old new : List Char) : List Char → List Char
  | [] => if old = [] then new else []
  | c :: cs =>
    if startsWith old (c :: cs) then new ++ (c :: cs).drop old.length
    else c :: replaceFirstChars old new cs

/-- Call `strings.Replace(s, old, new, 1)` (line 190). -/
def stringsReplace1 (s old new : String) : String :=
  ⟨replaceFirstChars old.toList new.toList s.toList⟩

/-- Everything `getUnprocessedVideos` reads from outside the two stores. -/
structure Env where
  /-- Environment variable read at line 191. -/
  IMMICH_UPLOAD_PATH : String
  /-- Environment variable read at line 192. -/
  VIDEO_PATH : String
  /-- Size reported by `os.Stat`, `none` when it fails. -/
  stat : String → Option Int
  /-- Error returned by `immichDB.Query` (line 170), if any. -/
  remoteQueryErr : Option String
  /-- Whether the INSERT for the given id returns an error (line 200). -/
  insertFails : String → Bool
  /-- Whether writing the cursor file fails (line 68). -/
  writeFails : Bool
  /-- Error returned by the local `db.Query` (line 218), if any. -/
  localQueryErr : Option String

/-- Function `getFileSize` (lines 247-253). -/
def getFileSize (env : Env) (path : String) : Int :=
  match env.stat path with
  | none => 0
  | some size => size

/-- One iteration of the loop over the remote rows (lines 180-207), on the pair of
the local table and `latestCreatedAt`.  `dests` is the number of destinations given
to `rows.Scan`; when the scan returns an error the iteration ends at `continue`. -/
def discoverRow (env : Env) (dests : Nat) (acc : List Row × Int) (a : Asset) :
    List Row × Int :=
  if rowsScan remoteColumns dests then
    let newPath := stringsReplace1 a.originalPath env.IMMICH_UPLOAD_PATH env.VIDEO_PATH
    let videos :=
      if env.insertFails a.id then acc.1
      else sqlInsertIgnore acc.1 a.id newPath "wait" (getFileSize env newPath)
    let latestCreatedAt := if a.createdAt > acc.2 then a.createdAt else acc.2
    (videos, latestCreatedAt)
  else acc

/-- The two persistent stores: the local table and the cursor file. -/
structure Store where
  videos : List Row
  cursorFile : Option Int
deriving DecidableEq

/-- What `getUnprocessedVideos` passes to `c.JSON`. -/
inductive DiscoverReply where
  /-- Reply `gin.H{"error": msg}` with the given status code. -/
  | error (code : Nat) (msg : String)
  /-- Reply of line 244, the waiting videos. -/
  | ok (waitingVideos : List Video)
deriving DecidableEq

/-- The local statement of lines 218-222 and the loop of lines 229-242: rows with
status `wait`, by path descending; only four fields of `Video` are filled. -/
def waitingVideos (videos : List Row) : List Video :=
  ((videos.filter (fun r => r.status == "wait")).insertionSort
    (fun a b => pathLE b.path a.path = true)).map
    (fun r => ⟨r.id, r.path, "", "", r.status, r.original_size⟩)

/-- Body of `getUnprocessedVideos` with the number of `rows.Scan` destinations as a
parameter. -/
def discoverWith (dests : Nat) (env : Env) (assets : List Asset) (s : Store) :
    DiscoverReply × Store :=
  let lastProcessed := loadLastProcessedTime s.cursorFile
  match env.remoteQueryErr with
  | some msg => (.error 500 msg, s)
  | none =>
    let acc := (remoteQuery assets lastProcessed).foldl (discoverRow env dests) (s.videos, 0)
    let cursorFile :=
      if acc.2 ≠ 0 then (saveLastProcessedTime env.writeFails acc.2 s.cursorFile).2
      else s.cursorFile
    match env.localQueryErr with
    | some msg => (.error 500 msg, ⟨acc.1, cursorFile⟩)
    | none => (.ok (waitingVideos acc.1), ⟨acc.1, cursorFile⟩)

/-- Handler `getUnprocessedVideos`: line 183 gives `rows.Scan` three destinations
(`&videoID, &originalPath, &createdAt`) for the four columns selected at line 161. -/
def getUnprocessedVideos (env : Env) (assets : List Asset) (s : Store) :
    DiscoverReply × Store :=
  discoverWith 3 env assets s

/-- The stores after `n` successive calls of `getUnprocessedVideos`. -/
def discoverTimes (env : Env) (assets : List Asset) : Nat → Store → Store
  | 0, s => s
  | n + 1, s => discoverTimes env assets n (getUnprocessedVideos env assets s).2

/-- Eligibility of a remote asset for discovery: a video, active, not an `.mkv` file. -/
def eligible (a : Asset) : Bool :=
  a.type == "VIDEO" && a.status == "active" && !likeMkv a.originalFileName

/-! ## Concrete data used at the evaluation points -/

/-- A local row with every column filled. -/
def sampleRow : Row := ⟨"a", "/data/x/a.mp4", some "1080p", some "4M", "pending", 1024⟩

/-- A second local row, with another id. -/
def otherRow : Row := ⟨"b", "/data/x/b.mp4", some "720p", some "2M", "completed", 2048⟩

/-- The table of the pagination scenario: three `processing` and two `pending` rows. -/
def sampleQueueTable : List Row :=
  [⟨"p1", "/data/b.mp4", some "1080p", some "4M", "pending", 10⟩,
   ⟨"r1", "/data/e.mp4", some "1080p", some "4M", "processing", 20⟩,
   ⟨"r2", "/data/c.mp4", some "720p", some "2M", "processing", 30⟩,
   ⟨"p2", "/data/a.mp4", some "720p", some "2M", "pending", 40⟩,
   ⟨"r3", "/data/d.mp4", some "480p", some "1M", "processing", 50⟩]

/-- An environment without failures: the upload root `/mnt` is mapped to `/data`. -/
def plainEnv : Env :=
  ⟨"/mnt", "/data", fun _ => some 4096, none, fun _ => false, false, none⟩

/-- The remote video of the discovery scenario, created at instant `1700000000`. -/
def scenarioAsset : Asset :=
  ⟨"a", "/mnt/x/a.mp4", 1700000000, "a.mp4", "VIDEO", "active"⟩

/-- An eligible remote video created at instant `1000`. -/
def tiedAsset (i : Nat) : Asset :=
  ⟨"asset-" ++ toString i, "/mnt/x/" ++ toString i ++ ".mp4", 1000, "clip.mp4", "VIDEO",
    "active"⟩

/-- One hundred and one eligible remote videos sharing one `createdAt`. -/
def tiedAssets : List Asset := (List.range 101).map tiedAsset

/-! ## Deletion -/

/-- C1. Fail-stop on the remote phase: whenever the remote delete request fails (the
request cannot be built or sent, or the response has a status code outside 200..299),
`deleteVideo` leaves the local table exactly as it was, replies under the key `error`,
and the status code of its reply is not a success code. -/
theorem deleteVideo_remote_failure_keeps_table (ID : String) (remote : RemoteResult)
    (execErr : Option String) (videos : List Row) (h : remoteFailed remote) :
    (deleteVideo ID remote execErr videos).2 = videos ∧
      (deleteVideo ID remote execErr videos).1.key = "error" ∧
      ¬ (200 ≤ (deleteVideo ID remote execErr videos).1.code ∧
          (deleteVideo ID remote execErr videos).1.code ≤ 299) := by
  unfold deleteVideo
  by_cases hID : ID = ""
  · simp [hID]
  · cases remote with
    | requestError msg => simp [hID]
    | transportError msg => simp [hID]
    | response StatusCode body =>
      have hne : StatusCode ≠ 200 := by
        intro h200
        exact h (by subst h200; decide)
      simp only [hID, hne, if_false, ne_eq, not_false_eq_true, if_true]
      exact ⟨trivial, trivial, h⟩

/-- Instance of C1: a 503 answer of the remote store, with the row present locally. -/
theorem deleteVideo_remote_failure_keeps_table_witness :
    remoteFailed (.response 503 "unavailable") ∧
      (deleteVideo "a" (.response 503 "unavailable") none [sampleRow, otherRow]).2
        = [sampleRow, otherRow] ∧
      (deleteVideo "a" (.response 503 "unavailable") none [sampleRow, otherRow]).1.key
        = "error" ∧
      ¬ (200 ≤ (deleteVideo "a" (.response 503 "unavailable") none
            [sampleRow, otherRow]).1.code ∧
          (deleteVideo "a" (.response 503 "unavailable") none
            [sampleRow, otherRow]).1.code ≤ 299) :=
  have h : remoteFailed (.response 503 "unavailable") := by
    unfold remoteFailed; omega
  ⟨h, deleteVideo_remote_failure_keeps_table "a" (.response 503 "unavailable") none
    [sampleRow, otherRow] h⟩

/-- C2 fails as stated: status 204 lies in 200..299 and the local DELETE would succeed,
yet after `deleteVideo` the row with that id is still in the table and the reply is
the remote status code under the key `error`. -/
theorem deleteVideo_status_204_keeps_row :
    (200 ≤ 204 ∧ 204 ≤ 299) ∧
      sampleRow ∈ (deleteVideo "a" (.response 204 "") none [sampleRow, otherRow]).2 ∧
      sampleRow.id = "a" ∧
      (deleteVideo "a" (.response 204 "") none [sampleRow, otherRow]).1
        = ⟨204, "error", ""⟩ := by
  decide

/-- C2, amended. Remote success is status code 200 exactly: for a non-empty id, a
response with status 200 and a local DELETE that succeeds, the reply is the success
message with code 200, no row with that id remains and every other row is kept; a
response with any other status code, 2xx included, is relayed under the key `error`
and the table is left as it was. -/
theorem deleteVideo_status_200_removes_row (ID body : String) (StatusCode : Nat)
    (execErr : Option String) (videos : List Row) (hID : ID ≠ "") :
    (StatusCode = 200 →
      (deleteVideo ID (.response StatusCode body) none videos).1
          = ⟨200, "message", "Video deleted successfully"⟩ ∧
        (∀ r ∈ (deleteVideo ID (.response StatusCode body) none videos).2, r.id ≠ ID) ∧
        (∀ r ∈ videos, r.id ≠ ID →
          r ∈ (deleteVideo ID (.response StatusCode body) none videos).2)) ∧
    (StatusCode ≠ 200 →
      deleteVideo ID (.response StatusCode body) execErr videos
        = (⟨StatusCode, "error", body⟩, videos)) := by
  constructor
  · intro h200
    subst h200
    simp only [deleteVideo, hID, sqlDelete, if_false, ne_eq, not_true_eq_false,
      List.mem_filter, bne_iff_ne, true_and]
    exact ⟨fun r hr => hr.2, fun r hr hne => ⟨hr, hne⟩⟩
  · intro hne
    simp [deleteVideo, hID, hne]

/-- Instance of amended C2: status 200 removes row `a` and keeps row `b`. -/
theorem deleteVideo_status_200_removes_row_witness :
    ("a" : String) ≠ "" ∧
      (deleteVideo "a" (.response 200 "") none [sampleRow, otherRow]).1
        = ⟨200, "message", "Video deleted successfully"⟩ ∧
      (∀ r ∈ (deleteVideo "a" (.response 200 "") none [sampleRow, otherRow]).2,
        r.id ≠ "a") ∧
      (deleteVideo "a" (.response 200 "") none [sampleRow, otherRow]).2 = [otherRow] :=
  ⟨by decide,
    ((deleteVideo_status_200_removes_row "a" "" 200 none [sampleRow, otherRow]
      (by decide)).1 rfl).1,
    ((deleteVideo_status_200_removes_row "a" "" 200 none [sampleRow, otherRow]
      (by decide)).1 rfl).2.1,
    by decide⟩

/-! ## Status update -/

/-- C4 fails as stated: on the empty table, where id `missing` has no row, the reply of
`updateVideoStatus` is the success reply `200 status updated`, not an error. -/
theorem updateVideoStatus_missing_id_reports_success :
    (∀ r ∈ ([] : List Row), r.id ≠ "missing") ∧
      updateVideoStatus "missing" "pending" none []
        = (⟨200, "status", "updated"⟩, []) ∧
      (updateVideoStatus "missing" "pending" none []).1.key ≠ "error" := by
  decide

/-- C4, amended. For an id that has no row, `updateVideoStatus` leaves the table
unchanged and replies with the success reply `200 status updated` whenever the UPDATE
statement itself returns no error; the only error reply is that of a failing
statement, with code 500. -/
theorem updateVideoStatus_missing_id_unchanged (id Status : String)
    (execErr : Option String) (videos : List Row) (h : ∀ r ∈ videos, r.id ≠ id) :
    (updateVideoStatus id Status execErr videos).2 = videos ∧
      (execErr = none →
        (updateVideoStatus id Status execErr videos).1 = ⟨200, "status", "updated"⟩) ∧
      (∀ msg, execErr = some msg →
        (updateVideoStatus id Status execErr videos).1 = ⟨500, "error", msg⟩) := by
  have hmap : sqlUpdateStatus videos Status id = videos := by
    unfold sqlUpdateStatus
    conv_rhs => rw [← List.map_id videos]
    apply List.map_congr_left
    intro r hr
    simp [h r hr]
  cases execErr with
  | none => simp [updateVideoStatus, hmap]
  | some msg => simp [updateVideoStatus]

/-- Instance of amended C4: id `zzz` is absent from a table of two rows. -/
theorem updateVideoStatus_missing_id_unchanged_witness :
    (∀ r ∈ [sampleRow, otherRow], r.id ≠ "zzz") ∧
      (updateVideoStatus "zzz" "completed" none [sampleRow, otherRow]).2
        = [sampleRow, otherRow] ∧
      (updateVideoStatus "zzz" "completed" none [sampleRow, otherRow]).1
        = ⟨200, "status", "updated"⟩ :=
  have h : ∀ r ∈ [sampleRow, otherRow], r.id ≠ "zzz" := by decide
  ⟨h, (updateVideoStatus_missing_id_unchanged "zzz" "completed" none
      [sampleRow, otherRow] h).1,
    (updateVideoStatus_missing_id_unchanged "zzz" "completed" none
      [sampleRow, otherRow] h).2.1 rfl⟩

/-! ## Paginated queue: auxiliary facts -/

/-- An integer inside the 64-bit range is its own Go `int` value. -/
theorem wrap64_of_range (x : Int) (h1 : -(2 ^ 63) ≤ x) (h2 : x < 2 ^ 63) : wrap64 x = x := by
  unfold wrap64
  omega

/-- The text comparison is total. -/
theorem charsLE_total : ∀ a b : List Char, charsLE a b = true ∨ charsLE b a = true
  | [], _ => Or.inl (by simp [charsLE])
  | _ :: _, [] => Or.inr (by simp [charsLE])
  | a :: as, b :: bs => by
    rcases Nat.lt_trichotomy a.toNat b.toNat with h | h | h
    · left; simp [charsLE, h]
    · have ih := charsLE_total as bs
      simp only [charsLE, h, lt_self_iff_false, if_false]
      exact ih
    · right; simp [charsLE, h]

/-- The text comparison is transitive. -/
theorem charsLE_trans : ∀ a b c : List Char,
    charsLE a b = true → charsLE b c = true → charsLE a c = true
  | [], _, _ => fun _ _ => by simp [charsLE]
  | _ :: _, [], _ => fun h _ => by simp [charsLE] at h
  | _ :: _, _ :: _, [] => fun _ h => by simp [charsLE] at h
  | a :: as, b :: bs, c :: cs => by
    intro hab hbc
    simp only [charsLE] at hab hbc ⊢
    split_ifs at hab hbc ⊢ <;> first
      | rfl
      | omega
      | exact charsLE_trans as bs cs hab hbc

/-- The grouping loop appends to each bucket the rows of its status, in order. -/
theorem groupStep_foldl (videos : List Video) (P R C : List Video) (total : Int) :
    videos.foldl groupStep ⟨P, R, C, total⟩ =
      ⟨P ++ videos.filter (fun v => v.Status == "pending"),
        R ++ videos.filter (fun v => v.Status == "processing"),
        C ++ videos.filter (fun v => v.Status == "completed"), total⟩ := by
  induction videos generalizing P R C with
  | nil => simp
  | cons v vs ih =>
    simp only [List.foldl_cons, groupStep]
    by_cases h1 : v.Status = "pending"
    · have h2 : v.Status ≠ "processing" := by rw [h1]; decide
      have h3 : v.Status ≠ "completed" := by rw [h1]; decide
      simp [h1, ih, List.filter_cons]
    · by_cases h2 : v.Status = "processing"
      · have h3 : v.Status ≠ "completed" := by rw [h2]; decide
        simp [h2, ih, List.filter_cons]
      · by_cases h3 : v.Status = "completed"
        · simp [h3, ih, List.filter_cons]
        · simp [h1, h2, h3, ih, List.filter_cons]


/-- The ORDER BY key compares any two rows. -/
theorem queueOrder_total (a b : Row) : queueOrder a b ∨ queueOrder b a := by
  unfold queueOrder pathLE
  rcases Nat.lt_trichotomy (statusPriority a.status) (statusPriority b.status) with h | h | h
  · exact Or.inl (Or.inl h)
  · rcases charsLE_total a.path.toList b.path.toList with hc | hc
    · exact Or.inl (Or.inr ⟨h, hc⟩)
    · exact Or.inr (Or.inr ⟨h.symm, hc⟩)
  · exact Or.inr (Or.inl h)

/-- The ORDER BY key is transitive. -/
theorem queueOrder_trans (a b c : Row) (hab : queueOrder a b) (hbc : queueOrder b c) :
    queueOrder a c := by
  unfold queueOrder pathLE at *
  rcases hab with h | ⟨h, hc⟩ <;> rcases hbc with h' | ⟨h', hc'⟩
  · exact Or.inl (by omega)
  · exact Or.inl (by omega)
  · exact Or.inl (by omega)
  · exact Or.inr ⟨by omega, charsLE_trans _ _ _ hc hc'⟩

/-- The ordered table is in ascending key order. -/
theorem insertionSort_queueOrder_sorted (l : List Row) :
    (l.insertionSort queueOrder).Pairwise queueOrder :=
  @List.sorted_insertionSort Row queueOrder _ ⟨queueOrder_total⟩ ⟨queueOrder_trans⟩ l

/-- A scanned row keeps the status and the path of the table row. -/
theorem scanVideoRow_fields (r : Row) (v : Video) (h : v ∈ scanVideoRow r) :
    v.Status = r.status ∧ v.Path = r.path := by
  unfold scanVideoRow at h
  split at h
  · simp at h; subst h; exact ⟨rfl, rfl⟩
  · simp at h

/-- OFFSET and LIMIT keep the rows of the page in ascending key order. -/
theorem queryPage_sorted (Status : String) (PageSize offset : Int) (videos : List Row) :
    (queryPage Status PageSize offset videos).Pairwise queueOrder := by
  unfold queryPage
  exact ((insertionSort_queueOrder_sorted _).sublist (List.drop_sublist _ _)).sublist
    (List.take_sublist _ _)

/-- The scanned page is in ascending key order. -/
theorem pageVideos_sorted (params : PaginationParams) (videos : List Row) :
    (pageVideos params videos).Pairwise videoOrder := by
  unfold pageVideos scanVideoRows
  refine List.Pairwise.filterMap scanVideoRow ?_ (queryPage_sorted _ _ _ _)
  intro a a' haa b hb b' hb'
  obtain ⟨h1, h2⟩ := scanVideoRow_fields a b hb
  obtain ⟨h1', h2'⟩ := scanVideoRow_fields a' b' hb'
  unfold videoOrder
  rw [h1, h2, h1', h2']
  exact haa

/-- Priority 1 is the status `processing`. -/
theorem statusPriority_eq_one (s : String) : statusPriority s = 1 ↔ s = "processing" := by
  unfold statusPriority
  split_ifs with h1 h2 h3 <;> simp [h1]

/-- Priority 2 is the status `pending`. -/
theorem statusPriority_eq_two (s : String) : statusPriority s = 2 ↔ s = "pending" := by
  unfold statusPriority
  split_ifs with h1 h2 h3
  · subst h1; decide
  · simp [h2]
  · simp [h2]
  · simp [h2]

/-- Priority 3 is the status `completed`. -/
theorem statusPriority_eq_three (s : String) : statusPriority s = 3 ↔ s = "completed" := by
  unfold statusPriority
  split_ifs with h1 h2 h3
  · subst h1; decide
  · subst h2; decide
  · simp [h3]
  · simp [h3]

/-- Every priority is at least 1. -/
theorem statusPriority_pos (s : String) : 1 ≤ statusPriority s := by
  unfold statusPriority
  split_ifs <;> omega

/-- What the key order of two rows says about their statuses and paths. -/
theorem videoOrder_statuses (a b : Video) (h : videoOrder a b) :
    (b.Status = "processing" → a.Status = "processing") ∧
      (b.Status = "pending" → a.Status = "processing" ∨ a.Status = "pending") ∧
      (b.Status = "completed" →
        a.Status = "processing" ∨ a.Status = "pending" ∨ a.Status = "completed") ∧
      (a.Status = b.Status → pathLE a.Path b.Path = true) := by
  have hle : statusPriority a.Status ≤ statusPriority b.Status := by
    rcases h with h | ⟨h, _⟩ <;> omega
  have hpos := statusPriority_pos a.Status
  refine ⟨fun hb => ?_, fun hb => ?_, fun hb => ?_, fun hab => ?_⟩
  · have := (statusPriority_eq_one b.Status).2 hb
    exact (statusPriority_eq_one a.Status).1 (by omega)
  · have := (statusPriority_eq_two b.Status).2 hb
    rcases Nat.lt_or_ge (statusPriority a.Status) 2 with h1 | h1
    · exact Or.inl ((statusPriority_eq_one a.Status).1 (by omega))
    · exact Or.inr ((statusPriority_eq_two a.Status).1 (by omega))
  · have := (statusPriority_eq_three b.Status).2 hb
    rcases Nat.lt_or_ge (statusPriority a.Status) 2 with h1 | h1
    · exact Or.inl ((statusPriority_eq_one a.Status).1 (by omega))
    · rcases Nat.lt_or_ge (statusPriority a.Status) 3 with h2 | h2
      · exact Or.inr (Or.inl ((statusPriority_eq_two a.Status).1 (by omega)))
      · exact Or.inr (Or.inr ((statusPriority_eq_three a.Status).1 (by omega)))
  · rcases h with h | ⟨_, h⟩
    · rw [hab] at h; omega
    · exact h

/-- The validated page size lies in 1..100. -/
theorem normPageSize_range (PageSize : Int) :
    1 ≤ normPageSize PageSize ∧ normPageSize PageSize ≤ 100 := by
  unfold normPageSize
  split_ifs with h <;> omega

/-- The filter returns no more rows than the table has. -/
theorem whereStatus_length_le (Status : String) (videos : List Row) :
    (whereStatus Status videos).length ≤ videos.length := by
  unfold whereStatus
  split_ifs
  · exact le_rfl
  · exact List.length_filter_le _ _

/-- On a table of representable size `total` is the number of filtered rows. -/
theorem countTotal_eq (Status : String) (videos : List Row)
    (hlen : (videos.length : Int) + 100 < 2 ^ 63) :
    countTotal Status videos = (whereStatus Status videos).length := by
  unfold countTotal
  have := whereStatus_length_le Status videos
  exact wrap64_of_range _ (by omega) (by omega)

/-- Without overflow `pages` is the rounded-down quotient `(total + p - 1) / p`. -/
theorem pageCount_eq (total p : Int) (h0 : 0 ≤ total) (ht : total + 100 < 2 ^ 63)
    (hp1 : 1 ≤ p) (hp2 : p ≤ 100) : pageCount total p = (total + p - 1) / p := by
  unfold pageCount
  rw [wrap64_of_range (total + p) (by omega) (by omega),
    wrap64_of_range (total + p - 1) (by omega) (by omega)]
  exact Int.tdiv_eq_ediv (by omega) (by omega)

/-- The quotient `(total + p - 1) / p` is the ceiling of `total / p`. -/
theorem ceil_div_eq (total p : Int) (hp1 : 1 ≤ p) :
    ⌈(total : ℚ) / (p : ℚ)⌉ = (total + p - 1) / p := by
  have hp : (0 : Int) < p := by omega
  have hpq : (0 : ℚ) < (p : ℚ) := by exact_mod_cast hp
  rw [Int.ceil_eq_iff]
  have h1 : (total + p - 1) / p * p ≤ total + p - 1 := Int.ediv_mul_le _ (by omega)
  have h2 : total + p - 1 < ((total + p - 1) / p + 1) * p :=
    Int.lt_ediv_add_one_mul_self _ hp
  constructor
  · rw [lt_div_iff₀ hpq]
    have : ((total + p - 1) / p - 1) * p < total := by nlinarith
    exact_mod_cast this
  · rw [div_le_iff₀ hpq]
    have : total ≤ (total + p - 1) / p * p := by nlinarith
    exact_mod_cast this

/-- The buckets of the grouping loop are the three filters of the page by status. -/
theorem groupByStatus_eq_filter (videos : List Video) (total : Int) :
    groupByStatus videos total =
      ⟨videos.filter (fun v => v.Status == "pending"),
        videos.filter (fun v => v.Status == "processing"),
        videos.filter (fun v => v.Status == "completed"), total⟩ := by
  unfold groupByStatus
  rw [groupStep_foldl]
  simp

/-- A successful reply of `getQueue` carries the grouping of its scanned page. -/
theorem getQueue_ok_queue (params : PaginationParams) (countErr queryErr : Option String)
    (rows : List Row) (queue : VideoQueue) (pagination : Pagination)
    (h : getQueue params countErr queryErr rows = .ok queue pagination) :
    queue = groupByStatus (pageVideos params rows) pagination.total := by
  unfold getQueue at h
  split at h
  · cases h
  · split at h
    · cases h
    · split at h
      · cases h
      · injection h with hq hp
        subst hq hp
        rfl

/-- In a list in ascending key order the rows of one status are in ascending path
order. -/
theorem bucket_path_sorted (videos : List Video) (status : String)
    (h : videos.Pairwise videoOrder) :
    (videos.filter (fun v => v.Status == status)).Pairwise
      (fun a b => pathLE a.Path b.Path = true) := by
  have hsub : (videos.filter (fun v => v.Status == status)).Pairwise videoOrder :=
    h.sublist (List.filter_sublist _)
  refine hsub.imp_of_mem ?_
  intro a b ha hb hab
  have hsa : a.Status = status := by simpa using (List.mem_filter.1 ha).2
  have hsb : b.Status = status := by simpa using (List.mem_filter.1 hb).2
  exact (videoOrder_statuses a b hab).2.2.2 (hsa.trans hsb.symm)

/-! ## Paginated queue -/

/-- C9. Page count over the effective page size: for every request whose page
statement the database accepts, on a table of representable size, `getQueue` reports
a page size equal to the requested one when that lies in 1..100 and 10 otherwise,
never zero, and reports `pages = (total + p - 1) / p`, the ceiling of `total / p`, for
the reported non-negative `total`. -/
theorem getQueue_page_count (params : PaginationParams) (videos : List Row)
    (hlen : (videos.length : Int) + 100 < 2 ^ 63) (hoff : 0 ≤ pageOffset params) :
    ∃ queue total pages,
      getQueue params none none videos
          = .ok queue ⟨normPage params.Page, normPageSize params.PageSize, total, pages⟩ ∧
        0 ≤ total ∧
        total = ((whereStatus params.Status videos).length : Int) ∧
        normPageSize params.PageSize
          = (if 1 ≤ params.PageSize ∧ params.PageSize ≤ 100 then params.PageSize else 10) ∧
        normPageSize params.PageSize ≠ 0 ∧
        pages = (total + normPageSize params.PageSize - 1) / normPageSize params.PageSize ∧
        pages = ⌈(total : ℚ) / (normPageSize params.PageSize : ℚ)⌉ := by
  obtain ⟨hp1, hp2⟩ := normPageSize_range params.PageSize
  have htot := countTotal_eq params.Status videos hlen
  have hle := whereStatus_length_le params.Status videos
  have h0 : (0 : Int) ≤ countTotal params.Status videos := by rw [htot]; omega
  have hpc := pageCount_eq (countTotal params.Status videos)
    (normPageSize params.PageSize) h0 (by rw [htot]; omega) hp1 hp2
  refine ⟨groupByStatus (pageVideos params videos) (countTotal params.Status videos),
    countTotal params.Status videos,
    pageCount (countTotal params.Status videos) (normPageSize params.PageSize),
    ?_, h0, htot, ?_, by omega, hpc, ?_⟩
  · simp [getQueue, not_lt.mpr hoff]
  · unfold normPageSize
    by_cases h : 1 ≤ params.PageSize ∧ params.PageSize ≤ 100
    · have h' : ¬ (params.PageSize < 1 ∨ params.PageSize > 100) := by omega
      simp [h, h']
    · have h' : params.PageSize < 1 ∨ params.PageSize > 100 := by omega
      simp [h, h']
  · rw [hpc, ceil_div_eq _ _ hp1]

/-- Instance of C9: a requested page size of 0 on a table of five rows is served with
page size 10 and one page; 250 is served with 10 as well, and 2 gives three pages. -/
theorem getQueue_page_count_witness :
    ((sampleQueueTable.length : Int) + 100 < 2 ^ 63 ∧ 0 ≤ pageOffset ⟨1, 0, ""⟩) ∧
      (∃ queue total pages,
        getQueue ⟨1, 0, ""⟩ none none sampleQueueTable
            = .ok queue ⟨normPage 1, normPageSize 0, total, pages⟩ ∧
          0 ≤ total ∧
          total = ((whereStatus "" sampleQueueTable).length : Int) ∧
          normPageSize 0 = (if 1 ≤ (0 : Int) ∧ (0 : Int) ≤ 100 then 0 else 10) ∧
          normPageSize 0 ≠ 0 ∧
          pages = (total + normPageSize 0 - 1) / normPageSize 0 ∧
          pages = ⌈(total : ℚ) / (normPageSize 0 : ℚ)⌉) ∧
      (∃ queue, getQueue ⟨1, 0, ""⟩ none none sampleQueueTable = .ok queue ⟨1, 10, 5, 1⟩) ∧
      (∃ queue, getQueue ⟨1, 250, ""⟩ none none sampleQueueTable = .ok queue ⟨1, 10, 5, 1⟩) ∧
      (∃ queue, getQueue ⟨1, 2, ""⟩ none none sampleQueueTable = .ok queue ⟨1, 2, 5, 3⟩) :=
  have h : (sampleQueueTable.length : Int) + 100 < 2 ^ 63 ∧ 0 ≤ pageOffset ⟨1, 0, ""⟩ := by
    decide
  ⟨h, getQueue_page_count ⟨1, 0, ""⟩ sampleQueueTable h.1 h.2,
    ⟨groupByStatus (pageVideos ⟨1, 0, ""⟩ sampleQueueTable) 5, by decide⟩,
    ⟨groupByStatus (pageVideos ⟨1, 250, ""⟩ sampleQueueTable) 5, by decide⟩,
    ⟨groupByStatus (pageVideos ⟨1, 2, ""⟩ sampleQueueTable) 5, by decide⟩⟩

/-- C10. Bucketing partitions the page by status: for every list of scanned rows, the
three buckets built by the grouping loop of `getQueue` are exactly the rows whose
status is `pending`, `processing` and `completed`, in page order; a row with any
other status, `wait` included, is in none of them; every successful reply of
`getQueue` carries these buckets of its page.  Scenario: three `processing` and two
`pending` rows at page 1 with page size 10 give buckets of sizes 3, 2 and 0, with
`total = 5` and `pages = 1`. -/
theorem groupByStatus_partitions (videos : List Video) (total : Int) :
    groupByStatus videos total =
        ⟨videos.filter (fun v => v.Status == "pending"),
          videos.filter (fun v => v.Status == "processing"),
          videos.filter (fun v => v.Status == "completed"), total⟩ ∧
      (∀ v ∈ videos, v.Status ≠ "pending" ∧ v.Status ≠ "processing" ∧ v.Status ≠ "completed" →
        v ∉ (groupByStatus videos total).Pending ∧
          v ∉ (groupByStatus videos total).Processing ∧
          v ∉ (groupByStatus videos total).Completed) ∧
      (∀ params countErr queryErr rows queue pagination,
        getQueue params countErr queryErr rows = .ok queue pagination →
          queue = groupByStatus (pageVideos params rows) pagination.total) ∧
      (∃ queue, getQueue ⟨1, 10, ""⟩ none none sampleQueueTable = .ok queue ⟨1, 10, 5, 1⟩ ∧
        queue.Processing.length = 3 ∧ queue.Pending.length = 2 ∧
        queue.Completed.length = 0 ∧ queue.Total = 5) := by
  have hgroup := groupByStatus_eq_filter videos total
  refine ⟨hgroup, ?_, ?_, ?_⟩
  · intro v _ hv
    rw [hgroup]
    simp [hv.1, hv.2.1, hv.2.2]
  · intro params countErr queryErr rows queue pagination h
    exact getQueue_ok_queue params countErr queryErr rows queue pagination h
  · exact ⟨groupByStatus (pageVideos ⟨1, 10, ""⟩ sampleQueueTable) 5, by decide, by decide,
      by decide, by decide, by decide⟩

/-- C8. Status-priority ordering: for every table and every unfiltered request, the
page statement orders the whole table by the key (priority of status, path), where
the result is a rearrangement of the table in ascending key order, and cuts the page
out of that order by OFFSET and LIMIT; hence the rows of the page are in ascending key
order: no row follows a row of lower priority (`processing` before `pending` before
`completed`), rows of equal status are in ascending path order, and each bucket of a
successful reply lists its rows by ascending path. -/
theorem getQueue_unfiltered_page_ordered (Page PageSize : Int) (videos : List Row) :
    (videos.insertionSort queueOrder).Perm videos ∧
      (videos.insertionSort queueOrder).Pairwise queueOrder ∧
      pageVideos ⟨Page, PageSize, ""⟩ videos
        = scanVideoRows
            (((videos.insertionSort queueOrder).drop
              (pageOffset ⟨Page, PageSize, ""⟩).toNat).take (normPageSize PageSize).toNat) ∧
      (pageVideos ⟨Page, PageSize, ""⟩ videos).Pairwise videoOrder ∧
      (pageVideos ⟨Page, PageSize, ""⟩ videos).Pairwise (fun a b =>
        (b.Status = "processing" → a.Status = "processing") ∧
          (b.Status = "pending" → a.Status = "processing" ∨ a.Status = "pending") ∧
          (b.Status = "completed" →
            a.Status = "processing" ∨ a.Status = "pending" ∨ a.Status = "completed") ∧
          (a.Status = b.Status → pathLE a.Path b.Path = true)) ∧
      (∀ countErr queryErr queue pagination,
        getQueue ⟨Page, PageSize, ""⟩ countErr queryErr videos = .ok queue pagination →
          queue.Processing.Pairwise (fun a b => pathLE a.Path b.Path = true) ∧
            queue.Pending.Pairwise (fun a b => pathLE a.Path b.Path = true) ∧
            queue.Completed.Pairwise (fun a b => pathLE a.Path b.Path = true)) := by
  refine ⟨List.perm_insertionSort _ _, insertionSort_queueOrder_sorted _, ?_,
    pageVideos_sorted _ _, ?_, ?_⟩
  · simp [pageVideos, queryPage, whereStatus]
  · exact (pageVideos_sorted _ _).imp (fun {a b} h => videoOrder_statuses a b h)
  · intro countErr queryErr queue pagination h
    rw [getQueue_ok_queue _ countErr queryErr videos queue pagination h,
      groupByStatus_eq_filter]
    exact ⟨bucket_path_sorted _ _ (pageVideos_sorted _ _),
      bucket_path_sorted _ _ (pageVideos_sorted _ _),
      bucket_path_sorted _ _ (pageVideos_sorted _ _)⟩

/-- C7 at two requests beyond the last page.  On a table of one row (one page of 64),
page `2 ^ 58 + 1` makes `(page - 1) * pageSize` wrap to offset 0, so the reply lists
the row although `total` and `pages` are those of page 1; on the same table with
page size 10, page `2 ^ 63 - 1` makes the offset wrap to `-20`, the page statement is
rejected and the reply is an error without `total` and `pages`. -/
theorem getQueue_page_overflow_returns_rows :
    (1 : Int) < 2 ^ 58 + 1 ∧
      pageOffset ⟨2 ^ 58 + 1, 64, ""⟩ = 0 ∧
      getQueue ⟨1, 64, ""⟩ none none [sampleRow]
        = .ok ⟨[⟨"a", "/data/x/a.mp4", "1080p", "4M", "pending", 1024⟩], [], [], 1⟩
            ⟨1, 64, 1, 1⟩ ∧
      getQueue ⟨2 ^ 58 + 1, 64, ""⟩ none none [sampleRow]
        = .ok ⟨[⟨"a", "/data/x/a.mp4", "1080p", "4M", "pending", 1024⟩], [], [], 1⟩
            ⟨2 ^ 58 + 1, 64, 1, 1⟩ ∧
      pageOffset ⟨2 ^ 63 - 1, 10, ""⟩ = -20 ∧
      getQueue ⟨2 ^ 63 - 1, 10, ""⟩ none none [sampleRow]
        = .error 500 "pq: OFFSET must not be negative" := by
  decide

/-! ## Pagination within range, and discovery: auxiliary facts -/

/-- Pagination within range: on a table of representable size and for a page number
whose offset does not overflow, a page beyond `pages` is answered with three empty
buckets, and with the `total` and `pages` that page 1 reports. -/
theorem getQueue_page_beyond_last_empty (params : PaginationParams) (videos : List Row)
    (hlen : (videos.length : Int) + 100 < 2 ^ 63)
    (hpage : params.Page * 100 < 2 ^ 63)
    (hbeyond : pageCount (countTotal params.Status videos) (normPageSize params.PageSize)
      < params.Page) :
    getQueue params none none videos
        = .ok ⟨[], [], [], countTotal params.Status videos⟩
            ⟨params.Page, normPageSize params.PageSize, countTotal params.Status videos,
              pageCount (countTotal params.Status videos) (normPageSize params.PageSize)⟩ ∧
      ∃ queue, getQueue { params with Page := 1 } none none videos
        = .ok queue
            ⟨1, normPageSize params.PageSize, countTotal params.Status videos,
              pageCount (countTotal params.Status videos) (normPageSize params.PageSize)⟩ := by
  obtain ⟨hp1, hp2⟩ := normPageSize_range params.PageSize
  have htot := countTotal_eq params.Status videos hlen
  have hle := whereStatus_length_le params.Status videos
  have h0 : (0 : Int) ≤ countTotal params.Status videos := by rw [htot]; omega
  have hpc := pageCount_eq (countTotal params.Status videos)
    (normPageSize params.PageSize) h0 (by rw [htot]; omega) hp1 hp2
  set p := normPageSize params.PageSize with hp
  set total := countTotal params.Status videos with htotal
  have hpos : (0 : Int) < p := by omega
  have hpages0 : 0 ≤ (total + p - 1) / p := Int.ediv_nonneg (by omega) (by omega)
  have hPage1 : 1 ≤ params.Page := by omega
  have hnorm : normPage params.Page = params.Page := by
    unfold normPage; simp [not_lt.mpr hPage1]
  have hcover : total ≤ (total + p - 1) / p * p := by
    have := Int.lt_ediv_add_one_mul_self (total + p - 1) hpos
    nlinarith
  have hprod : total ≤ (params.Page - 1) * p := by
    have : (total + p - 1) / p ≤ params.Page - 1 := by omega
    nlinarith
  have hprod2 : (params.Page - 1) * p < 2 ^ 63 := by nlinarith
  have hoffset : pageOffset params = (params.Page - 1) * p := by
    unfold pageOffset
    rw [hnorm, wrap64_of_range (params.Page - 1) (by omega) (by omega),
      wrap64_of_range _ (by nlinarith) hprod2]
  have hoff0 : ¬ pageOffset params < 0 := by rw [hoffset]; omega
  have hempty : pageVideos params videos = [] := by
    unfold pageVideos queryPage
    rw [hoffset, List.drop_eq_nil_of_le]
    · simp [scanVideoRows]
    · rw [List.length_insertionSort]
      have : ((whereStatus params.Status videos).length : Int) ≤ (params.Page - 1) * p := by
        rw [← htot]; exact hprod
      omega
  constructor
  · simp only [getQueue, hoff0, if_false, hempty, hnorm]
    rfl
  · refine ⟨groupByStatus (pageVideos { params with Page := 1 } videos) total, ?_⟩
    have hoff1 : pageOffset { params with Page := 1 } = 0 := by
      unfold pageOffset normPage wrap64
      simp
    simp only [getQueue, hoff1, lt_self_iff_false, if_false]
    rfl

/-- With three destinations for four columns the scan fails and the iteration changes
neither the table nor `latestCreatedAt`. -/
theorem discoverRow_three (env : Env) (acc : List Row × Int) (a : Asset) :
    discoverRow env 3 acc a = acc := by
  unfold discoverRow
  have h : rowsScan remoteColumns 3 = false := by decide
  simp [h]

/-- The whole loop of `getUnprocessedVideos` returns its initial pair. -/
theorem foldl_discoverRow_three (env : Env) (rows : List Asset) (acc : List Row × Int) :
    rows.foldl (discoverRow env 3) acc = acc := by
  induction rows generalizing acc with
  | nil => rfl
  | cons a rest ih => rw [List.foldl_cons, discoverRow_three, ih]

/-- A call of `getUnprocessedVideos` leaves both stores as they were. -/
theorem getUnprocessedVideos_store (env : Env) (assets : List Asset) (s : Store) :
    (getUnprocessedVideos env assets s).2 = s := by
  unfold getUnprocessedVideos discoverWith
  cases hq : env.remoteQueryErr with
  | some msg => rfl
  | none =>
    simp only [foldl_discoverRow_three]
    cases hl : env.localQueryErr <;> simp

/-- Any number of calls of `getUnprocessedVideos` leaves both stores as they were. -/
theorem discoverTimes_store (env : Env) (assets : List Asset) (n : Nat) (s : Store) :
    discoverTimes env assets n s = s := by
  induction n generalizing s with
  | zero => rfl
  | succ n ih => rw [discoverTimes, getUnprocessedVideos_store, ih]

/-- Each of the tied videos is eligible and created at instant `1000`. -/
theorem tiedAssets_eligible (a : Asset) (h : a ∈ tiedAssets) :
    eligible a = true ∧ a.createdAt = 1000 := by
  unfold tiedAssets at h
  rw [List.mem_map] at h
  obtain ⟨i, _, rfl⟩ := h
  exact ⟨rfl, rfl⟩

set_option maxRecDepth 100000 in
/-- With no saved cursor the remote statement returns a full batch of the tied videos. -/
theorem remoteQuery_tiedAssets_length : (remoteQuery tiedAssets 0).length = 100 := by
  decide

/-! ## Discovery -/

/-- C3 at the failing input: one hundred and one eligible remote videos sharing one
`createdAt`, an empty local table and no saved cursor.  After any number of calls of
`getUnprocessedVideos` the local table is still empty and the cursor file still
absent, the remote statement still returns a full batch of 100 rows, and so no
eligible id is in the local table. -/
theorem getUnprocessedVideos_never_ingests (n : Nat) :
    tiedAssets.length = 101 ∧
      (∀ a ∈ tiedAssets, eligible a = true ∧ a.createdAt = 1000) ∧
      discoverTimes plainEnv tiedAssets n ⟨[], none⟩ = ⟨[], none⟩ ∧
      (remoteQuery tiedAssets (loadLastProcessedTime
        (discoverTimes plainEnv tiedAssets n ⟨[], none⟩).cursorFile)).length = 100 ∧
      (∀ a ∈ tiedAssets,
        ∀ r ∈ (discoverTimes plainEnv tiedAssets n ⟨[], none⟩).videos, r.id ≠ a.id) := by
  have hstore := discoverTimes_store plainEnv tiedAssets n ⟨[], none⟩
  refine ⟨by simp [tiedAssets], tiedAssets_eligible, hstore, ?_, ?_⟩
  · rw [hstore]
    exact remoteQuery_tiedAssets_length
  · rw [hstore]
    intro a _ r hr
    cases hr

/-- C5 at the failing input: no saved cursor and one remote video with
`createdAt = 1700000000`.  The remote statement returns that row, yet after one call
of `getUnprocessedVideos`, and after any further calls, `loadLastProcessedTime` still
returns the zero timestamp, which is not the maximum `createdAt` returned. -/
theorem getUnprocessedVideos_cursor_stays_zero (n : Nat) :
    remoteQuery [scenarioAsset] (loadLastProcessedTime none) = [scenarioAsset] ∧
      scenarioAsset.createdAt = 1700000000 ∧
      loadLastProcessedTime
        (discoverTimes plainEnv [scenarioAsset] (n + 1) ⟨[], none⟩).cursorFile = 0 ∧
      loadLastProcessedTime
        (discoverTimes plainEnv [scenarioAsset] (n + 1) ⟨[], none⟩).cursorFile
          ≠ scenarioAsset.createdAt ∧
      (discoverTimes plainEnv [scenarioAsset] (n + 1) ⟨[], none⟩).videos = [] := by
  rw [discoverTimes_store]
  decide

/-- C6. Discovery is idempotent: for every environment, remote data set, local table
and cursor, a second call of `getUnprocessedVideos` on unchanged remote data leaves
the local table and the cursor file exactly as the first call left them.  Moreover
one iteration of the discovery loop, whatever the outcome of its scan and of its
INSERT, on an asset whose id is already in the table returns the table as it was, so
no row is added and no stored path, status or size is altered. -/
theorem getUnprocessedVideos_idempotent (env : Env) (assets : List Asset) (s : Store)
    (dests : Nat) (latestCreatedAt : Int) (a : Asset) :
    (getUnprocessedVideos env assets (getUnprocessedVideos env assets s).2).2
        = (getUnprocessedVideos env assets s).2 ∧
      ((∃ r ∈ s.videos, r.id = a.id) →
        (discoverRow env dests (s.videos, latestCreatedAt) a).1 = s.videos) := by
  constructor
  · rw [getUnprocessedVideos_store, getUnprocessedVideos_store]
  · rintro ⟨r, hr, hid⟩
    have hany : s.videos.any (fun r => r.id == a.id) = true := by
      rw [List.any_eq_true]
      exact ⟨r, hr, by simp [hid]⟩
    unfold discoverRow sqlInsertIgnore
    split_ifs <;> simp_all

/-- Instance of C6: the table already holds the row of the scenario video with other
field values; two calls leave the stores alone and the loop body keeps the row. -/
theorem getUnprocessedVideos_idempotent_witness :
    (getUnprocessedVideos plainEnv [scenarioAsset]
        (getUnprocessedVideos plainEnv [scenarioAsset] ⟨[sampleRow], none⟩).2).2
        = (getUnprocessedVideos plainEnv [scenarioAsset] ⟨[sampleRow], none⟩).2 ∧
      (discoverRow plainEnv 4 ([sampleRow], 0) scenarioAsset).1 = [sampleRow] :=
  ⟨(getUnprocessedVideos_idempotent plainEnv [scenarioAsset] ⟨[sampleRow], none⟩ 4 0
      scenarioAsset).1,
    (getUnprocessedVideos_idempotent plainEnv [scenarioAsset] ⟨[sampleRow], none⟩ 4 0
      scenarioAsset).2 ⟨sampleRow, by decide, by decide⟩⟩

/-! ## The discovery loop with one destination per column

What the loop body does once `rows.Scan` is given a destination for each of the four
columns (`discoverWith 4`). -/

set_option maxRecDepth 1000000 in
/-- Ties at the batch boundary, with the scan given one destination per column: on
the same one hundred and one videos the first call ingests 100 rows and saves the
shared `createdAt` as cursor, the remote statement then returns no row, a second call
changes nothing, and the id of the last video is not in the local table. -/
theorem discoverWith_four_tied_assets :
    ((discoverWith 4 plainEnv tiedAssets ⟨[], none⟩).2.videos.length = 100 ∧
      (discoverWith 4 plainEnv tiedAssets ⟨[], none⟩).2.cursorFile = some 1000) ∧
      remoteQuery tiedAssets 1000 = [] ∧
      (∀ r ∈ (discoverWith 4 plainEnv tiedAssets ⟨[], none⟩).2.videos,
        r.id ≠ (tiedAsset 100).id) := by
  decide

/-- The discovery scenario with the scan given one destination per column: the row
is stored under the rewritten path with status `wait` and the cursor becomes the
`createdAt` of the video. -/
theorem discoverWith_four_scenario :
    (discoverWith 4 plainEnv [scenarioAsset] ⟨[], none⟩).2
      = ⟨[⟨"a", "/data/x/a.mp4", none, none, "wait", 4096⟩], some 1700000000⟩ := by
  decide

/-- Every row the remote statement returns was created after the cursor. -/
theorem remoteQuery_after_cursor (assets : List Asset) (lastProcessed : Int) (a : Asset)
    (h : a ∈ remoteQuery assets lastProcessed) : lastProcessed < a.createdAt := by
  unfold remoteQuery at h
  have h1 := List.mem_of_mem_take h
  have h2 := (List.perm_insertionSort _ _).subset h1
  have h3 := (List.mem_filter.1 h2).2
  simp only [Bool.and_eq_true, decide_eq_true_eq] at h3
  exact h3.1.2

/-- With one destination per column the loop keeps in `latestCreatedAt` the maximum of
its initial value and the `createdAt` of the rows. -/
theorem foldl_discoverRow_four_latest (env : Env) (rows : List Asset)
    (acc : List Row × Int) :
    (rows.foldl (discoverRow env 4) acc).2 = (rows.map (fun a => a.createdAt)).foldl max acc.2 := by
  induction rows generalizing acc with
  | nil => rfl
  | cons a rest ih =>
    rw [List.foldl_cons, ih, List.map_cons, List.foldl_cons]
    congr 1
    have h : rowsScan remoteColumns 4 = true := by decide
    simp only [discoverRow, h, if_true]
    split_ifs with hgt
    · exact (max_eq_right (le_of_lt hgt)).symm
    · exact (max_eq_left (not_lt.mp hgt)).symm

/-- A maximum taken over a list is at least its initial value. -/
theorem le_foldl_max (l : List Int) (m : Int) : m ≤ l.foldl max m := by
  induction l generalizing m with
  | nil => exact le_rfl
  | cons x xs ih => exact le_trans (le_max_left m x) (ih (max m x))

/-- Two maxima over one list of values above both initial values are equal, unless
the list is empty. -/
theorem foldl_max_init (l : List Int) (m c : Int) (hne : l ≠ [])
    (hm : ∀ x ∈ l, m < x) (hc : ∀ x ∈ l, c < x) : l.foldl max m = l.foldl max c := by
  cases l with
  | nil => exact absurd rfl hne
  | cons x xs =>
    simp only [List.foldl_cons]
    rw [max_eq_right (le_of_lt (hm x (List.mem_cons_self _ _))),
      max_eq_right (le_of_lt (hc x (List.mem_cons_self _ _)))]

/-- The cursor as running maximum, for the loop with one destination per column: when
the remote statement and the file write succeed and the cursor is not before the zero
timestamp, the cursor after a call is the maximum of the cursor before the call and
the `createdAt` of the rows the remote statement returned. -/
theorem discoverWith_four_cursor (env : Env) (assets : List Asset) (s : Store)
    (hq : env.remoteQueryErr = none) (hw : env.writeFails = false)
    (h0 : 0 ≤ loadLastProcessedTime s.cursorFile) :
    loadLastProcessedTime (discoverWith 4 env assets s).2.cursorFile =
      ((remoteQuery assets (loadLastProcessedTime s.cursorFile)).map
        (fun a => a.createdAt)).foldl max (loadLastProcessedTime s.cursorFile) := by
  have hfile : (discoverWith 4 env assets s).2.cursorFile =
      if ((remoteQuery assets (loadLastProcessedTime s.cursorFile)).foldl
          (discoverRow env 4) (s.videos, 0)).2 ≠ 0
      then some ((remoteQuery assets (loadLastProcessedTime s.cursorFile)).foldl
          (discoverRow env 4) (s.videos, 0)).2
      else s.cursorFile := by
    unfold discoverWith
    simp only [hq, saveLastProcessedTime, hw]
    cases env.localQueryErr <;> simp
  rw [hfile, foldl_discoverRow_four_latest]
  set rows := remoteQuery assets (loadLastProcessedTime s.cursorFile) with hrows
  cases hl : rows with
  | nil => simp
  | cons a rest =>
    have hall : ∀ x ∈ (a :: rest).map (fun a => a.createdAt),
        loadLastProcessedTime s.cursorFile < x := by
      intro x hx
      obtain ⟨b, hb, rfl⟩ := List.mem_map.1 hx
      exact remoteQuery_after_cursor assets _ b (by rw [← hrows, hl]; exact hb)
    have hzero : ∀ x ∈ (a :: rest).map (fun a => a.createdAt), (0 : Int) < x :=
      fun x hx => lt_of_le_of_lt h0 (hall x hx)
    have heq := foldl_max_init _ 0 (loadLastProcessedTime s.cursorFile)
      (by simp) hzero hall
    have hpos : (0 : Int) < ((a :: rest).map (fun a => a.createdAt)).foldl max 0 := by
      have h1 := hzero a.createdAt (by simp)
      have h2 := le_foldl_max (rest.map (fun a => a.createdAt)) (max 0 a.createdAt)
      have h3 := le_max_right (0 : Int) a.createdAt
      simp only [List.map_cons, List.foldl_cons]
      omega
    rw [if_pos (ne_of_gt hpos)]
    simp only [loadLastProcessedTime]
    exact heq

end VideoBackend
